import Mathlib

/-!
# Infinite Wiki — verification of the topic-resolution orchestrator

Shallow embedding of the core of the Infinite Wiki client:
the retry policy (`callWithRetry`), the session response cache
(`getCache` / `setCache`), the provider wrappers (`generateAsciiArt`,
`generateImage`, `getShortDefinition`, `streamDefinition`), the history
tracker (`updateHistory` and the startup load), the fallback-art
synthesizer (`createFallbackArt`), the cancellation mechanism of the
orchestrator (the `isCancelled` closure flag of `fetchContentAndArt`,
rendered as an epoch counter: the flag of the run started as epoch `e`
is raised exactly when a later resolution has begun, i.e. when `e` is no
longer the current epoch), and the search-bar validation
(`handleInputChange` / `handleSubmit`).

JavaScript strings are modelled as Lean `String` (sequences of
characters), numbers as `Nat`, promise failure as `Except String`
carrying the error message, and the external generative provider as an
oracle function giving the outcome of each successive provider
invocation.  String helpers (`jsToLower`, `jsTrim`, `containsSubstr`)
are defined structurally over the character list so that every
definition evaluates inside the kernel.
-/

/-! ## JavaScript string primitives -/

/-- Holds when `pat` occurs at the start of `cs`. -/
def charsPrefixMatch : List Char → List Char → Bool
  | [], _ => true
  | _ :: _, [] => false
  | p :: ps, c :: cs => p == c && charsPrefixMatch ps cs

/-- Holds when `pat` occurs somewhere inside `cs`. -/
def charsContain (pat : List Char) : List Char → Bool
  | [] => charsPrefixMatch pat []
  | c :: cs => charsPrefixMatch pat (c :: cs) || charsContain pat cs

/-- Returns `true` when `pat` occurs as a substring of `s`; embeds
JavaScript `String.prototype.includes`. -/
def containsSubstr (s pat : String) : Bool :=
  charsContain pat.data s.data

/-- Embeds JavaScript `String.prototype.toLowerCase` (ASCII case folding,
which covers every comparison the source performs). -/
def jsToLower (s : String) : String :=
  String.mk (s.data.map Char.toLower)

/-- Embeds JavaScript `String.prototype.toUpperCase`. -/
def jsToUpper (s : String) : String :=
  String.mk (s.data.map Char.toUpper)

/-- The character class matched by `\s` in JavaScript regular expressions,
also the set removed by `String.prototype.trim`. -/
def jsWhitespaceChar (c : Char) : Bool :=
  c == ' ' || c == '\t' || c == '\n' || c == '\r' ||
    c == Char.ofNat 0x0B || c == Char.ofNat 0x0C ||
    c == Char.ofNat 0xA0 || c == Char.ofNat 0x1680 ||
    (Char.ofNat 0x2000 ≤ c && c ≤ Char.ofNat 0x200A) ||
    c == Char.ofNat 0x2028 || c == Char.ofNat 0x2029 ||
    c == Char.ofNat 0x202F || c == Char.ofNat 0x205F ||
    c == Char.ofNat 0x3000 || c == Char.ofNat 0xFEFF

/-- Embeds JavaScript `String.prototype.trim`. -/
def jsTrim (s : String) : String :=
  String.mk (((s.data.dropWhile jsWhitespaceChar).reverse.dropWhile
    jsWhitespaceChar).reverse)

/-- Embeds JavaScript `String.prototype.substring(0, n)`. -/
def jsSubstringTo (s : String) (n : Nat) : String :=
  String.mk (s.data.take n)

/-! ## Retry policy (services/geminiService.ts, `callWithRetry`)

The source loops `for (let attempt = 0; attempt <= maxRetries; attempt++)`,
re-invoking `fn` after a backoff delay only when the caught error message
is classified as a rate limit or an overload and `attempt < maxRetries`;
any other error (or exhaustion of the attempt budget) is re-thrown at
once.  The embedding recurses on `remaining = maxRetries - attempt` and
additionally reports how many times the operation was invoked and which
backoff delays were slept, so that invocation counts and delays are
provable facts. -/

/-- Rate-limit classification of `callWithRetry`:
`errorMessage.includes(429) or lowercased includes(too many requests) or includes(quota)`. -/
def isRateLimitMsg (m : String) : Bool :=
  containsSubstr m "429" || containsSubstr (jsToLower m) "too many requests" ||
    containsSubstr (jsToLower m) "quota"

/-- Overload classification of `callWithRetry`:
`errorMessage.includes(503) or lowercased includes(overloaded)`. -/
def isOverloadedMsg (m : String) : Bool :=
  containsSubstr m "503" || containsSubstr (jsToLower m) "overloaded"

/-- An error message is transient when it is classified as a rate limit
or an overload; only these are retried. -/
def isTransientMsg (m : String) : Bool :=
  isRateLimitMsg m || isOverloadedMsg m

/-- Outcome of running an operation wrapped in `callWithRetry`: the final
result, the total number of invocations of the operation, and the list of
backoff delays slept between invocations. -/
structure RetryOutcome (α : Type) where
  res : Except String α
  calls : Nat
  delays : List Nat
deriving Repr

/-- Tail of the `callWithRetry` loop starting at a given attempt index
with `remaining = maxRetries - attempt` retries still allowed.  `op k` is
the outcome of the `k`-th invocation (0-indexed) of the wrapped
operation; `jitter k` is the random jitter drawn before the retry that
follows attempt `k` (`Math.random() * 500` in the source, left abstract
here). -/
def callWithRetryGo (op : Nat → Except String α) (baseDelay : Nat)
    (jitter : Nat → Nat) : Nat → Nat → RetryOutcome α
  | attempt, 0 =>
    match op attempt with
    | .ok v => ⟨.ok v, 1, []⟩
    | .error e => ⟨.error e, 1, []⟩
  | attempt, remaining + 1 =>
    match op attempt with
    | .ok v => ⟨.ok v, 1, []⟩
    | .error e =>
      if isTransientMsg e then
        let rest := callWithRetryGo op baseDelay jitter (attempt + 1) remaining
        ⟨rest.res, rest.calls + 1,
          (baseDelay * 2 ^ attempt + jitter attempt) :: rest.delays⟩
      else
        ⟨.error e, 1, []⟩

/-- Embeds `callWithRetry(fn, maxRetries, baseDelay)` of geminiService.ts.
Source defaults are `maxRetries = 5`, `baseDelay = 2000`. -/
def callWithRetry (op : Nat → Except String α) (maxRetries baseDelay : Nat)
    (jitter : Nat → Nat) : RetryOutcome α :=
  callWithRetryGo op baseDelay jitter 0 maxRetries

/-! ## Session response cache (services/geminiService.ts)

`sessionStorage` is modelled as an association list from full keys to
stored values; `setItem` overwrites any previous binding.  The constant
`CACHE_PREFIX` (the string `wiki_cache_v1_`) of the source is inlined. -/

/-- Embeds `getCache(key)`: look up `CACHE_PREFIX + key` in session storage. -/
def getCache (cache : List (String × String)) (key : String) : Option String :=
  (cache.find? (fun e => e.1 == "wiki_cache_v1_" ++ key)).map (fun e => e.2)

/-- Embeds `setCache(key, value)`: bind `CACHE_PREFIX + key`, replacing any
previous binding for the same key. -/
def setCache (cache : List (String × String)) (key value : String) :
    List (String × String) :=
  ("wiki_cache_v1_" ++ key, value) ::
    cache.filter (fun e => e.1 != "wiki_cache_v1_" ++ key)

/-- Embeds `getApiErrorMessage(error, context)` of geminiService.ts. -/
def getApiErrorMessage (message context : String) : String :=
  if containsSubstr message "429" || containsSubstr (jsToLower message) "quota" then
    "The neural network is extremely busy right now. We are retrying, but the traffic is high. Please try again in a minute."
  else if containsSubstr (jsToUpper message) "SAFETY" then
    "The content for \"" ++ context ++ "\" was restricted by safety filters."
  else
    "Could not generate knowledge for \"" ++ context ++ "\". Check your connection."

/-! ## Provider wrappers (services/geminiService.ts)

The external generative service is out of scope; each wrapper takes an
oracle `provider` giving the (already parsed) outcome of the `k`-th
provider invocation: for the art and short-definition calls
`Except String (Option String)` is an error, a response whose relevant
field is missing or empty (`none`), or the extracted text (`some`); for
the image call `some data` is an image candidate with inline data and
`none` a response without one.  Each wrapper returns its result together
with the updated cache and the number of provider invocations made. -/

/-- Result of one service-layer call: the returned value, the session
cache afterwards and how many provider invocations were performed. -/
structure ServiceOutcome (α : Type) where
  res : α
  cache : List (String × String)
  calls : Nat
deriving Repr

/-- Embeds `generateAsciiArt(topic, style)` of geminiService.ts: consult the
cache under `ascii_<lowercased topic>_<style>`; on a miss run the
provider call through `callWithRetry`, require a non-empty `art` field,
cache and return it; any failure becomes the single user-facing error
string `Visual translation failed.` with the cache unchanged. -/
def generateAsciiArt (provider : Nat → Except String (Option String))
    (jitter : Nat → Nat) (cache : List (String × String))
    (topic style : String) : ServiceOutcome (Except String String) :=
  let key := "ascii_" ++ jsToLower topic ++ "_" ++ style
  match getCache cache key with
  | some cached => ⟨.ok cached, cache, 0⟩
  | none =>
    let out := callWithRetry provider 5 2000 jitter
    match out.res with
    | .ok (some art) => ⟨.ok art, setCache cache key art, out.calls⟩
    | .ok none => ⟨.error "Visual translation failed.", cache, out.calls⟩
    | .error _ => ⟨.error "Visual translation failed.", cache, out.calls⟩

/-- Embeds `generateImage(topic, aspectRatio, style)` of geminiService.ts:
consult the cache under `img_<lowercased topic>_<aspect>_<style>`; on a
miss run the provider call through `callWithRetry`; a candidate with
inline data is cached and returned; a response without one returns
`null`; any error is swallowed and also returns `null`. -/
def generateImage (provider : Nat → Except String (Option String))
    (jitter : Nat → Nat) (cache : List (String × String))
    (topic aspect style : String) : ServiceOutcome (Option String) :=
  let key := "img_" ++ jsToLower topic ++ "_" ++ aspect ++ "_" ++ style
  match getCache cache key with
  | some cached => ⟨some cached, cache, 0⟩
  | none =>
    let out := callWithRetry provider 5 2000 jitter
    match out.res with
    | .ok (some data) => ⟨some data, setCache cache key data, out.calls⟩
    | .ok none => ⟨none, cache, out.calls⟩
    | .error _ => ⟨none, cache, out.calls⟩

/-- Embeds `getShortDefinition(topic)` of geminiService.ts (tooltip text):
consult the cache under `def_<lowercased topic>`; on a miss run the
provider call through `callWithRetry`; the trimmed response text, or
`No definition found.` when empty, is cached and returned; any error
yields `Knowledge unavailable.` with the cache unchanged. -/
def getShortDefinition (provider : Nat → Except String (Option String))
    (jitter : Nat → Nat) (cache : List (String × String))
    (topic : String) : ServiceOutcome String :=
  let key := "def_" ++ jsToLower topic
  match getCache cache key with
  | some cached => ⟨cached, cache, 0⟩
  | none =>
    let out := callWithRetry provider 5 2000 jitter
    match out.res with
    | .ok (some text) => ⟨text, setCache cache key text, out.calls⟩
    | .ok none =>
      ⟨"No definition found.", setCache cache key "No definition found.", out.calls⟩
    | .error _ => ⟨"Knowledge unavailable.", cache, out.calls⟩

/-- Embeds `streamDefinition(topic)` of geminiService.ts: the stream setup is
run through `callWithRetry`; the resulting chunk sequence is yielded
as-is (modelled as the list of chunks); a failure is rethrown as the
user-facing message from `getApiErrorMessage`.  The function neither
reads nor writes the session cache; the cache is threaded through only
to make that fact a provable statement. -/
def streamDefinition (setup : Nat → Except String (List String))
    (jitter : Nat → Nat) (cache : List (String × String))
    (topic : String) : ServiceOutcome (Except String (List String)) :=
  let out := callWithRetry setup 5 2000 jitter
  match out.res with
  | .ok chunks => ⟨.ok chunks, cache, out.calls⟩
  | .error e => ⟨.error (getApiErrorMessage e topic), cache, out.calls⟩

/-! ## App state and orchestrator (App.tsx) -/

/-- Embeds `AsciiArtData` of geminiService.ts; `text` is optional. -/
structure AsciiArtData where
  art : String
  text : Option String
deriving Repr, DecidableEq

/-- A horizontal run of `n` box-drawing dashes; embeds
`'─'.repeat(n)`. -/
def dashRun (n : Nat) : String :=
  String.mk (List.replicate n '─')

/-- Embeds `createFallbackArt(topic)` of App.tsx: a bordered box around the
topic, truncated to 17 characters plus `...` when longer than 20. -/
def createFallbackArt (topic : String) : AsciiArtData :=
  let displayableTopic :=
    if 20 < topic.length then jsSubstringTo topic 17 ++ "..." else topic
  let paddedTopic := " " ++ displayableTopic ++ " "
  let topBorder := "┌" ++ dashRun paddedTopic.length ++ "┐"
  let middle := "│" ++ paddedTopic ++ "│"
  let bottomBorder := "└" ++ dashRun paddedTopic.length ++ "┘"
  ⟨topBorder ++ "\n" ++ middle ++ "\n" ++ bottomBorder, none⟩

/-- Embeds `updateHistory` of App.tsx: prepend the topic to the previous list
with every case-insensitive match of it removed, then truncate.
`maxLen` is 10 in src/App.tsx (5 and 8 in the near-duplicate
variants). -/
def updateHistory (maxLen : Nat) (topic : String) (prev : List String) :
    List String :=
  (topic :: prev.filter (fun item => jsToLower item != jsToLower topic)).take maxLen

/-- Modelled from the spec words of `record(topic)` — "removes any
existing case-insensitive match, prepends the new topic, truncates to
max length N" — for comparison with the source `updateHistory`. -/
def recordSpec (maxLen : Nat) (topic : String) (prev : List String) :
    List String :=
  let removed := prev.filter (fun item => decide (¬ jsToLower item = jsToLower topic))
  (topic :: removed).take maxLen

/-- Shape of the value produced by `JSON.parse` on the stored history,
as far as the loader inspects it (`Array.isArray`). -/
inductive StoredHistory
  | arr (xs : List String)
  | nonArray
deriving Repr

/-- The startup history-loading effect of App.tsx: a parse failure
removes the stored entry and leaves the history empty; a parsed array is
installed as-is (no length or duplicate validation); any other parsed
value is ignored. -/
def loadHistory : Except Unit StoredHistory → List String
  | .error _ => []
  | .ok (.arr xs) => xs
  | .ok .nonArray => []

/-- No two entries of the list are equal case-insensitively. -/
def caseInsensitiveDistinct (h : List String) : Prop :=
  h.Pairwise (fun a b => jsToLower a ≠ jsToLower b)

/-- The history invariant claimed by the spec: bounded length and no
case-insensitive duplicates. -/
def historyInvariant (maxLen : Nat) (h : List String) : Prop :=
  h.length ≤ maxLen ∧ caseInsensitiveDistinct h

/-- The observable state of the App component; one field per `useState`
hook that the generation tasks touch (the copy/share/download button
labels are presentation-only and omitted). -/
structure AppState where
  content : String
  isLoading : Bool
  error : Option String
  asciiArt : Option AsciiArtData
  imageUrl : Option String
  isImageLoading : Bool
  generationTime : Option Nat
  searchHistory : List String
deriving Repr, DecidableEq

/-- Initial values of the `useState` hooks of App.tsx. -/
def initAppState : AppState :=
  { content := "", isLoading := true, error := none, asciiArt := none,
    imageUrl := none, isImageLoading := true, generationTime := none,
    searchHistory := [] }

/-- One asynchronous callback of the three generation tasks of
`fetchContentAndArt` in src/App.tsx: a streamed definition chunk, art
success, art failure (the catch installs the fallback box for the topic
of the run), image settlement (the `then` stores the result, the `finally`
clears the loading flag), stream failure (the catch stores the message)
and stream settlement (the `finally` records the elapsed time and clears
the loading flag). -/
inductive TaskEffect
  | defChunk (chunk : String)
  | artResult (art : AsciiArtData)
  | artFailure (topic : String)
  | imageResult (data : Option String)
  | imageSettled
  | streamError (message : String)
  | streamSettled (elapsedMs : Nat)
deriving Repr

/-- State mutation performed by a callback when its run is not
cancelled, exactly as in src/App.tsx. -/
def applyEffect : TaskEffect → AppState → AppState
  | .defChunk c, s => { s with content := s.content ++ c }
  | .artResult a, s => { s with asciiArt := some a }
  | .artFailure topic, s => { s with asciiArt := some (createFallbackArt topic) }
  | .imageResult d, s => { s with imageUrl := d }
  | .imageSettled, s => { s with isImageLoading := false }
  | .streamError m, s => { s with error := some m }
  | .streamSettled t, s => { s with generationTime := some t, isLoading := false }

/-- Every callback first checks the `isCancelled` flag of its run and
mutates nothing when it is raised (the chunk loop breaks before
appending). -/
def applyGuarded (isCancelled : Bool) (eff : TaskEffect) (s : AppState) :
    AppState :=
  if isCancelled then s else applyEffect eff s

/-- The catch handler of `fetchContentAndArt` in the part_000 variant of
App.tsx, which additionally clears the accumulated content:
`setError(errorMessage)` followed by `setContent` with the empty string. -/
def onStreamErrorPart0 (message : String) (s : AppState) : AppState :=
  { s with error := some message, content := "" }

/-- Orchestrator state: the current topic, the number of resolutions
started so far (the run spawned as epoch `e` has its `isCancelled` flag
raised exactly when `e` is no longer the current epoch), and the
component state. -/
structure OrchestratorState where
  currentTopic : String
  epoch : Nat
  app : AppState
deriving Repr

/-- The synchronous state resets at the top of `fetchContentAndArt`
(performed unguarded by the newly started run). -/
def resetForFetch (s : AppState) : AppState :=
  { s with
    isLoading := true
    isImageLoading := true
    error := none
    content := ""
    asciiArt := none
    imageUrl := none
    generationTime := none }

/-- One topic resolution: the topic effect of App.tsx re-runs, recording
the topic into the history (src/App.tsx keeps 10 entries), cancelling
the previous run (epoch increment) and resetting the per-run state. -/
def resolve (topic : String) (o : OrchestratorState) : OrchestratorState :=
  { currentTopic := topic,
    epoch := o.epoch + 1,
    app := resetForFetch
      { o.app with searchHistory := updateHistory 10 topic o.app.searchHistory } }

/-- Embeds `handleSearch` of App.tsx: trim, then resolve only when non-empty
and different (case-insensitively) from the current topic. -/
def handleSearch (raw : String) (o : OrchestratorState) : OrchestratorState :=
  let newTopic := jsTrim raw
  if newTopic ≠ "" ∧ jsToLower newTopic ≠ jsToLower o.currentTopic then
    resolve newTopic o
  else o

/-- An asynchronous callback arriving at the orchestrator, tagged with
the epoch of the run that spawned it. -/
structure TaskEvent where
  epoch : Nat
  eff : TaskEffect
deriving Repr

/-- Delivery of a task callback: the `isCancelled` flag of the run is raised
exactly when its epoch is no longer the current one. -/
def stepEvent (o : OrchestratorState) (ev : TaskEvent) : OrchestratorState :=
  { o with app := applyGuarded (ev.epoch != o.epoch) ev.eff o.app }

/-! ## Search bar (components/SearchBar.tsx) -/

/-- One character of the class `[a-zA-Z0-9\s-]` of the validation regex. -/
def isAllowedQueryChar (c : Char) : Bool :=
  ('a' ≤ c && c ≤ 'z') || ('A' ≤ c && c ≤ 'Z') || ('0' ≤ c && c ≤ '9') ||
    jsWhitespaceChar c || c == '-'

/-- The validation `/^[a-zA-Z0-9\s-]*$/.test(newQuery)` of
`handleInputChange`. -/
def isValidQuery (q : String) : Bool :=
  q.data.all isAllowedQueryChar

/-- The state of the SearchBar component relevant to submission: the
controlled input value and the input colour used as the validity flag. -/
structure SearchBarState where
  query : String
  inputColor : String
deriving Repr, DecidableEq

/-- Initial SearchBar state: empty query, white input colour. -/
def initSearchBar : SearchBarState :=
  ⟨"", "#ffffff"⟩

/-- Embeds `handleInputChange`: store the new value and colour it white when
empty, blue when valid, red when it contains a disallowed character. -/
def handleInputChange (_s : SearchBarState) (newQuery : String) : SearchBarState :=
  { query := newQuery,
    inputColor :=
      if newQuery = "" then "#ffffff"
      else if isValidQuery newQuery then "#4D90FE" else "#ff4444" }

/-- Embeds `handleSubmit`: invoke `onSearch` with the trimmed query only when
the query is non-empty after trimming, the bar is enabled, and the input
is not flagged invalid (red); `some t` is the invocation of the search
callback with topic `t`, `none` is a dropped submission. -/
def handleSubmit (s : SearchBarState) (disabled : Bool) : Option String :=
  if jsTrim s.query ≠ "" ∧ disabled = false ∧ s.inputColor ≠ "#ff4444" then
    some (jsTrim s.query)
  else none

/-- A sequence of input-change events applied to the SearchBar. -/
def applyChanges : SearchBarState → List String → SearchBarState
  | s, [] => s
  | s, q :: qs => applyChanges (handleInputChange s q) qs

/-! ## Helper lemmas -/

theorem callWithRetryGo_transient (op : Nat → Except String α) (b : Nat)
    (j : Nat → Nat) :
    ∀ (r a : Nat),
      (∀ k, a ≤ k → k ≤ a + r → ∃ e, op k = .error e ∧ isTransientMsg e = true) →
      (callWithRetryGo op b j a r).res = op (a + r) ∧
        (callWithRetryGo op b j a r).calls = r + 1 := by
  intro r
  induction r with
  | zero =>
    intro a h
    obtain ⟨e, he, _⟩ := h a le_rfl (by omega)
    simp [callWithRetryGo, he]
  | succ r ih =>
    intro a h
    obtain ⟨e, he, ht⟩ := h a le_rfl (by omega)
    have hrest := ih (a + 1) (fun k hk1 hk2 => h k (by omega) (by omega))
    have harith : a + 1 + r = a + (r + 1) := by omega
    rw [harith] at hrest
    simp [callWithRetryGo, he, ht, hrest.1, hrest.2]

theorem getCache_setCache_self (cache : List (String × String))
    (key value : String) : getCache (setCache cache key value) key = some value := by
  simp [getCache, setCache, List.find?]

/-! ## Claim theorems -/

/-- C3 — retry exhaustion on persistently transient errors: an operation
whose every attempt fails with a message classified `RateLimited` or
`Overloaded` is invoked by `callWithRetry` exactly `maxRetries + 1`
times in total, and the error of the final attempt is propagated. -/
theorem callWithRetry_transient_exhaustion (op : Nat → Except String α)
    (m b : Nat) (j : Nat → Nat)
    (h : ∀ k, k ≤ m → ∃ e, op k = .error e ∧ isTransientMsg e = true) :
    (callWithRetry op m b j).calls = m + 1 ∧
      (callWithRetry op m b j).res = op m := by
  have := callWithRetryGo_transient op b j m 0 (fun k hk1 hk2 => h k (by omega))
  exact ⟨by simpa [callWithRetry] using this.2, by simpa [callWithRetry] using this.1⟩

/-- C3 witness: an operation always failing with a 429 rate-limit
message, run with `maxRetries = 3`, is invoked exactly 4 times and the
error propagates. -/
theorem callWithRetry_transient_exhaustion_witness :
    (callWithRetry (fun _ => (.error "429: quota exceeded" : Except String Nat))
        3 2000 (fun _ => 0)).calls = 4 ∧
      (callWithRetry (fun _ => (.error "429: quota exceeded" : Except String Nat))
        3 2000 (fun _ => 0)).res = .error "429: quota exceeded" :=
  callWithRetry_transient_exhaustion (fun _ => .error "429: quota exceeded")
    3 2000 (fun _ => 0)
    (fun k _ => ⟨"429: quota exceeded", rfl, by decide⟩)

/-- C4 — non-transient short-circuit: when the first invocation fails
with a message not classified transient, `callWithRetry` performs no
further invocations, sleeps no backoff delay, and propagates that error
at once. -/
theorem callWithRetry_nontransient_single (op : Nat → Except String α)
    (m b : Nat) (j : Nat → Nat) (e : String)
    (hop : op 0 = .error e) (hnt : isTransientMsg e = false) :
    (callWithRetry op m b j).res = .error e ∧
      (callWithRetry op m b j).calls = 1 ∧
      (callWithRetry op m b j).delays = [] := by
  cases m with
  | zero => simp [callWithRetry, callWithRetryGo, hop]
  | succ r => simp [callWithRetry, callWithRetryGo, hop, hnt]

/-- C4 witness: an operation failing with a safety-block message is
invoked once, with no delay, and the error propagates. -/
theorem callWithRetry_nontransient_single_witness :
    (callWithRetry (fun _ => (.error "SAFETY: blocked" : Except String Nat))
        5 2000 (fun _ => 0)).res = .error "SAFETY: blocked" ∧
      (callWithRetry (fun _ => (.error "SAFETY: blocked" : Except String Nat))
        5 2000 (fun _ => 0)).calls = 1 ∧
      (callWithRetry (fun _ => (.error "SAFETY: blocked" : Except String Nat))
        5 2000 (fun _ => 0)).delays = [] :=
  callWithRetry_nontransient_single (fun _ => .error "SAFETY: blocked")
    5 2000 (fun _ => 0) "SAFETY: blocked" rfl (by decide)

/-- C5 — history recording: `updateHistory` prepends the topic to the
previous list with all case-insensitive matches removed and truncates to
the maximum length, exactly as the spec words of `record(topic)` state;
in particular submitting Cat, Dog, Cat onto an empty history yields
`["Cat", "Dog"]`. -/
theorem updateHistory_matches_record_spec :
    (∀ (maxLen : Nat) (topic : String) (prev : List String),
        updateHistory maxLen topic prev = recordSpec maxLen topic prev) ∧
      updateHistory 10 "Cat" (updateHistory 10 "Dog" (updateHistory 10 "Cat" [])) =
        ["Cat", "Dog"] := by
  constructor
  · intro maxLen topic prev
    unfold updateHistory recordSpec
    congr 2
    apply List.filter_congr
    intro a _
    by_cases hab : jsToLower a = jsToLower topic <;> simp [hab]
  · decide

/-- C6 counterexample: the startup load installs a parsed array as-is,
so durable storage holding two case-insensitive duplicates loads into a
history that violates the claimed invariant. -/
theorem history_load_breaks_invariant_cex :
    ¬ historyInvariant 10 (loadHistory (.ok (.arr ["Cat", "cat"]))) := by
  simp only [historyInvariant, caseInsensitiveDistinct, loadHistory]
  decide

/-- C6 amended: every `updateHistory` yields a history of length at most
the maximum and preserves case-insensitive distinctness (so every history
built by records from the empty list satisfies the invariant), but the
startup load installs any parsed array unvalidated. -/
theorem history_invariant_amended :
    (∀ (maxLen : Nat) (topic : String) (prev : List String),
        (updateHistory maxLen topic prev).length ≤ maxLen) ∧
      (∀ (maxLen : Nat) (topic : String) (prev : List String),
          caseInsensitiveDistinct prev →
          caseInsensitiveDistinct (updateHistory maxLen topic prev)) ∧
      (∀ xs : List String, loadHistory (.ok (.arr xs)) = xs) := by
  refine ⟨?_, ?_, ?_⟩
  · intro maxLen topic prev
    exact List.length_take_le maxLen _
  · intro maxLen topic prev hprev
    unfold updateHistory caseInsensitiveDistinct
    have hcons :
        (topic :: prev.filter (fun item => jsToLower item != jsToLower topic)).Pairwise
          (fun a b => jsToLower a ≠ jsToLower b) := by
      refine List.pairwise_cons.mpr ⟨?_, List.Pairwise.filter _ hprev⟩
      intro b hb
      exact Ne.symm (bne_iff_ne.mp (List.mem_filter.mp hb).2)
    exact hcons.sublist (List.take_sublist _ _)
  · intro xs
    rfl

/-- C6 witness: a distinct two-entry history stays distinct through a
record. -/
theorem history_invariant_amended_witness :
    caseInsensitiveDistinct ["Dog", "Cat"] ∧
      caseInsensitiveDistinct (updateHistory 10 "Cat" ["Dog", "Cat"]) :=
  ⟨by simp only [caseInsensitiveDistinct]; decide,
   history_invariant_amended.2.1 10 "Cat" ["Dog", "Cat"]
     (by simp only [caseInsensitiveDistinct]; decide)⟩

/-- C8 — fallback art: a failed art task (current epoch) stores exactly
the locally synthesized bordered box for the topic of the run without
touching the error state; the box is three lines joined by newlines,
the middle line being the display topic padded with one space on each
side (the topic itself when at most 20 characters, else its first 17
characters followed by three dots), the borders being dash runs of the
padded width. -/
theorem art_failure_installs_fallback_box :
    ∀ (t : String) (o : OrchestratorState),
      (stepEvent o ⟨o.epoch, .artFailure t⟩).app.asciiArt =
          some (createFallbackArt t) ∧
        (stepEvent o ⟨o.epoch, .artFailure t⟩).app.error = o.app.error ∧
        (createFallbackArt t).art =
          ("┌" ++ dashRun ((if 20 < t.length then jsSubstringTo t 17 ++ "..." else t).length + 2) ++ "┐")
            ++ "\n" ++
            ("│" ++ (" " ++ (if 20 < t.length then jsSubstringTo t 17 ++ "..." else t) ++ " ") ++ "│")
            ++ "\n" ++
            ("└" ++ dashRun ((if 20 < t.length then jsSubstringTo t 17 ++ "..." else t).length + 2) ++ "┘") := by
  intro t o
  refine ⟨?_, ?_, ?_⟩
  · simp [stepEvent, applyGuarded, applyEffect]
  · simp [stepEvent, applyGuarded, applyEffect]
  · have hone : (" ").length = 1 := rfl
    have hl :
        (" " ++ (if 20 < t.length then jsSubstringTo t 17 ++ "..." else t) ++ " ").length =
          (if 20 < t.length then jsSubstringTo t 17 ++ "..." else t).length + 2 := by
      rw [String.length_append, String.length_append, hone]
      omega
    simp only [createFallbackArt, hl]

/-- C2 counterexample: in src/App.tsx the stream-failure catch sets the
error but does not clear the accumulated content — after a failure
following a delivered chunk, the content state is still the partial
text, not the empty string the claim requires. -/
theorem stream_failure_keeps_content_cex :
    (stepEvent
        ⟨"Gravity", 1,
          ⟨"Gravity **pulls** mass.", true, none, none, none, true, none, ["Gravity"]⟩⟩
        ⟨1, .streamError "Network interference"⟩).app.content ≠ "" := by
  decide

/-- C2 amended: on a definition-stream failure with the topic still
current, src/App.tsx sets the user-facing error, stops the definition
loading flag and records the elapsed time, but leaves the accumulated
content untouched; the part_000 variant of the catch handler
additionally clears the accumulated content to empty. -/
theorem stream_failure_amended :
    (∀ (o : OrchestratorState) (m : String) (ms : Nat),
        ((stepEvent (stepEvent o ⟨o.epoch, .streamError m⟩)
            ⟨o.epoch, .streamSettled ms⟩).app.error = some m) ∧
          ((stepEvent (stepEvent o ⟨o.epoch, .streamError m⟩)
              ⟨o.epoch, .streamSettled ms⟩).app.isLoading = false) ∧
          ((stepEvent (stepEvent o ⟨o.epoch, .streamError m⟩)
              ⟨o.epoch, .streamSettled ms⟩).app.generationTime = some ms) ∧
          ((stepEvent (stepEvent o ⟨o.epoch, .streamError m⟩)
              ⟨o.epoch, .streamSettled ms⟩).app.content = o.app.content)) ∧
      (∀ (m : String) (s : AppState),
          (onStreamErrorPart0 m s).content = "" ∧
            (onStreamErrorPart0 m s).error = some m) := by
  constructor
  · intro o m ms
    refine ⟨?_, ?_, ?_, ?_⟩ <;> simp [stepEvent, applyGuarded, applyEffect]
  · intro m s
    exact ⟨rfl, rfl⟩

/-- C1 — epoch exclusivity: after a resolution of `t1` is immediately
superseded by a search for `t2` (non-empty after trimming and differing
case-insensitively from `t1`), delivering any pending callback of the
`t1` run — or of any earlier run — leaves the component state unchanged:
the cancellation check suppresses every superseded effect. -/
theorem epoch_exclusivity (o : OrchestratorState) (t1 t2 : String)
    (ev : TaskEvent)
    (hstale : ev.epoch ≤ (resolve t1 o).epoch)
    (ht2 : jsTrim t2 ≠ "")
    (hdiff : jsToLower (jsTrim t2) ≠ jsToLower t1) :
    (stepEvent (handleSearch t2 (resolve t1 o)) ev).app =
      (handleSearch t2 (resolve t1 o)).app := by
  have hsearch :
      handleSearch t2 (resolve t1 o) = resolve (jsTrim t2) (resolve t1 o) := by
    unfold handleSearch
    exact if_pos ⟨ht2, hdiff⟩
  rw [hsearch]
  have hstale1 : ev.epoch ≤ o.epoch + 1 := hstale
  have hne : ev.epoch ≠ (resolve (jsTrim t2) (resolve t1 o)).epoch := by
    show ev.epoch ≠ o.epoch + 1 + 1
    omega
  unfold stepEvent
  simp [applyGuarded, bne_iff_ne.mpr hne]

/-- C1 witness: a stale chunk of the Cat resolution delivered after the
Dog search begins changes nothing. -/
theorem epoch_exclusivity_witness :
    ((⟨1, .defChunk "stale chunk"⟩ : TaskEvent).epoch ≤
        (resolve "Cat" ⟨"Hypertext", 0, initAppState⟩).epoch) ∧
      (stepEvent (handleSearch "Dog" (resolve "Cat" ⟨"Hypertext", 0, initAppState⟩))
          ⟨1, .defChunk "stale chunk"⟩).app =
        (handleSearch "Dog" (resolve "Cat" ⟨"Hypertext", 0, initAppState⟩)).app :=
  ⟨by decide,
   epoch_exclusivity ⟨"Hypertext", 0, initAppState⟩ "Cat" "Dog"
     ⟨1, .defChunk "stale chunk"⟩ (by decide) (by decide) (by decide)⟩

/-- C9 — silent image failure: when the cache misses and the retried
provider call fails, `generateImage` returns `null` with the cache
unchanged instead of raising; delivering the image result and the image
settlement at the current epoch stores that result, clears the
image-loading flag whatever the result was, and never touches the error
state. -/
theorem image_failure_silent (provider : Nat → Except String (Option String))
    (j : Nat → Nat) (cache : List (String × String))
    (topic aspect style e : String)
    (hmiss : getCache cache
        ("img_" ++ jsToLower topic ++ "_" ++ aspect ++ "_" ++ style) = none)
    (hfail : (callWithRetry provider 5 2000 j).res = .error e) :
    ((generateImage provider j cache topic aspect style).res = none ∧
        (generateImage provider j cache topic aspect style).cache = cache) ∧
      (∀ (o : OrchestratorState) (r : Option String),
        ((stepEvent (stepEvent o ⟨o.epoch, .imageResult r⟩)
            ⟨o.epoch, .imageSettled⟩).app.imageUrl = r) ∧
          ((stepEvent (stepEvent o ⟨o.epoch, .imageResult r⟩)
              ⟨o.epoch, .imageSettled⟩).app.isImageLoading = false) ∧
          ((stepEvent (stepEvent o ⟨o.epoch, .imageResult r⟩)
              ⟨o.epoch, .imageSettled⟩).app.error = o.app.error)) := by
  constructor
  · simp only [generateImage]
    rw [hmiss, hfail]
    exact ⟨rfl, rfl⟩
  · intro o r
    refine ⟨?_, ?_, ?_⟩ <;> simp [stepEvent, applyGuarded, applyEffect]

/-- C9 witness: a provider failing outright yields a `null` image from
an empty cache. -/
theorem image_failure_silent_witness :
    (getCache []
        ("img_" ++ jsToLower "Gravity" ++ "_" ++ "16:9" ++ "_" ++ "Cinematic") = none) ∧
      (generateImage (fun _ => .error "boom") (fun _ => 0) []
          "Gravity" "16:9" "Cinematic").res = none :=
  ⟨rfl,
   (image_failure_silent (fun _ => .error "boom") (fun _ => 0) []
      "Gravity" "16:9" "Cinematic" "boom" rfl rfl).1.1⟩

theorem generateAsciiArt_ok_in_cache (provider : Nat → Except String (Option String))
    (j : Nat → Nat) (cache : List (String × String)) (t style a : String)
    (hres : (generateAsciiArt provider j cache t style).res = .ok a) :
    getCache (generateAsciiArt provider j cache t style).cache
      ("ascii_" ++ jsToLower t ++ "_" ++ style) = some a := by
  simp only [generateAsciiArt] at hres ⊢
  cases hget : getCache cache ("ascii_" ++ jsToLower t ++ "_" ++ style) with
  | some cached =>
    rw [hget] at hres ⊢
    simp only [Except.ok.injEq] at hres
    subst hres
    rfl
  | none =>
    rw [hget] at hres
    cases hcall : (callWithRetry provider 5 2000 j).res with
    | ok oa =>
      cases oa with
      | some art =>
        rw [hcall] at hres
        simp only [Except.ok.injEq] at hres
        subst hres
        exact getCache_setCache_self cache _ art
      | none =>
        rw [hcall] at hres
        simp at hres
    | error e =>
      rw [hcall] at hres
      simp at hres

theorem generateAsciiArt_cache_hit (provider : Nat → Except String (Option String))
    (j : Nat → Nat) (cache : List (String × String)) (t style a : String)
    (hhit : getCache cache ("ascii_" ++ jsToLower t ++ "_" ++ style) = some a) :
    generateAsciiArt provider j cache t style = ⟨.ok a, cache, 0⟩ := by
  simp only [generateAsciiArt]
  rw [hhit]

/-- C7 counterexample: the session cache is also consulted and populated
by the short tooltip-definition operation (`def_` keys), not only by art
and image generation — with a cached entry present, `getShortDefinition`
returns it with zero provider invocations, and with an empty cache the
same call returns the fresh provider text instead. -/
theorem short_definition_consults_cache_cex :
    ((getShortDefinition (fun _ => .ok (some "Fresh text.")) (fun _ => 0)
        [("wiki_cache_v1_def_cat", "A cached cat definition.")] "Cat").res =
      "A cached cat definition.") ∧
      ((getShortDefinition (fun _ => .ok (some "Fresh text.")) (fun _ => 0)
          [("wiki_cache_v1_def_cat", "A cached cat definition.")] "Cat").calls = 0) ∧
      ((getShortDefinition (fun _ => .ok (some "Fresh text.")) (fun _ => 0)
          [] "Cat").res = "Fresh text.") :=
  ⟨rfl, rfl, rfl⟩

/-- C7 amended: a second art generation for the same style and a topic
equal up to lowercasing returns the value of the first call from the cache
with zero provider invocations and an unchanged cache; the streamed
definition neither reads nor writes the cache (its result is
cache-independent and the cache passes through unchanged).  The cache
is, however, also used by the short tooltip-definition operation. -/
theorem art_cache_reuse_amended :
    (∀ (provider provider2 : Nat → Except String (Option String))
        (j j2 : Nat → Nat) (cache : List (String × String))
        (t1 t2 style a : String),
        jsToLower t2 = jsToLower t1 →
        (generateAsciiArt provider j cache t1 style).res = .ok a →
        generateAsciiArt provider2 j2
            (generateAsciiArt provider j cache t1 style).cache t2 style =
          ⟨.ok a, (generateAsciiArt provider j cache t1 style).cache, 0⟩) ∧
      (∀ (setup : Nat → Except String (List String)) (j : Nat → Nat)
          (cache cache2 : List (String × String)) (topic : String),
        (streamDefinition setup j cache topic).cache = cache ∧
          (streamDefinition setup j cache topic).res =
            (streamDefinition setup j cache2 topic).res) := by
  constructor
  · intro provider provider2 j j2 cache t1 t2 style a hlow hres
    have hcached := generateAsciiArt_ok_in_cache provider j cache t1 style a hres
    have hcached2 :
        getCache (generateAsciiArt provider j cache t1 style).cache
          ("ascii_" ++ jsToLower t2 ++ "_" ++ style) = some a := by
      rw [hlow]
      exact hcached
    exact generateAsciiArt_cache_hit provider2 j2 _ t2 style a hcached2
  · intro setup j cache cache2 topic
    simp only [streamDefinition]
    cases hcall : (callWithRetry setup 5 2000 j).res <;> exact ⟨rfl, rfl⟩

/-- C7 witness: a cached art value for Cat is reused for CAT with zero
provider invocations even when the provider has become unavailable. -/
theorem art_cache_reuse_amended_witness :
    (jsToLower "CAT" = jsToLower "Cat") ∧
      ((generateAsciiArt (fun _ => .ok (some "ART")) (fun _ => 0) []
          "Cat" "Standard").res = .ok "ART") ∧
      generateAsciiArt (fun _ => .error "offline") (fun _ => 0)
          (generateAsciiArt (fun _ => .ok (some "ART")) (fun _ => 0) []
            "Cat" "Standard").cache "CAT" "Standard" =
        ⟨.ok "ART",
         (generateAsciiArt (fun _ => .ok (some "ART")) (fun _ => 0) []
            "Cat" "Standard").cache, 0⟩ :=
  ⟨rfl, rfl,
   art_cache_reuse_amended.1 (fun _ => .ok (some "ART")) (fun _ => .error "offline")
     (fun _ => 0) (fun _ => 0) [] "Cat" "CAT" "Standard" "ART" rfl rfl⟩

theorem applyChanges_color (evs : List String) :
    ∀ s : SearchBarState,
      s.inputColor =
          (if s.query = "" then "#ffffff"
           else if isValidQuery s.query then "#4D90FE" else "#ff4444") →
      (applyChanges s evs).inputColor =
        (if (applyChanges s evs).query = "" then "#ffffff"
         else if isValidQuery (applyChanges s evs).query then "#4D90FE"
         else "#ff4444") := by
  induction evs with
  | nil => intro s h; exact h
  | cons q qs ih => intro s _; exact ih _ rfl

/-- C10 — the search bar never submits punctuation: whatever sequence of
input-change events produced the current query, if the query contains a
character outside the allowed class (letters, digits, whitespace,
hyphen), the form submission does not invoke the search callback. -/
theorem searchbar_blocks_invalid_submission (evs : List String)
    (disabled : Bool) (c : Char)
    (hmem : c ∈ (applyChanges initSearchBar evs).query.data)
    (hbad : isAllowedQueryChar c = false) :
    handleSubmit (applyChanges initSearchBar evs) disabled = none := by
  have hcolor := applyChanges_color evs initSearchBar rfl
  have hne : (applyChanges initSearchBar evs).query ≠ "" := by
    intro h0
    rw [h0] at hmem
    simp [String.data] at hmem
  have hinv : isValidQuery (applyChanges initSearchBar evs).query = false := by
    unfold isValidQuery
    rw [List.all_eq_false]
    exact ⟨c, hmem, by simp [hbad]⟩
  have hred : (applyChanges initSearchBar evs).inputColor = "#ff4444" := by
    rw [hcolor, if_neg hne, if_neg (by simp [hinv])]
  unfold handleSubmit
  rw [if_neg]
  intro hcond
  exact hcond.2.2 hred

/-- C10 witness: typing `Cat!` and submitting drops the submission. -/
theorem searchbar_blocks_invalid_submission_witness :
    ('!' ∈ (applyChanges initSearchBar ["Cat!"]).query.data) ∧
      handleSubmit (applyChanges initSearchBar ["Cat!"]) false = none :=
  ⟨by decide,
   searchbar_blocks_invalid_submission ["Cat!"] false '!' (by decide) (by decide)⟩
